import Mathlib

/-
Verification development for the `az-vm` command-line tool
(single source file `create-az-vm.js`).

The JavaScript source is shallowly embedded below:
  - strings are Lean `String` (a structure around `List Char`);
  - the object literal `IMAGE_PRESETS` is an association list;
  - `crypto.randomInt` draws are explicit `Nat` parameters (a `Rand` record),
    and the random-comparator `Array.prototype.sort` shuffle is an arbitrary
    function assumed (where needed) to permute its input;
  - `Date.now()` readings are explicit `Nat` parameters;
  - `execSync` outcomes and `JSON.parse` results are supplied by an
    environment record, and `main`'s control flow is a function from that
    environment to the list of issued external calls plus the exit code.
-/

namespace AzVm

/-! ## Credential generator (source: generateSecurePassword, lines 79-105) -/

/-- Lowercase character class used by `generateSecurePassword`. -/
def lowercase : String := "abcdefghijklmnopqrstuvwxyz"

/-- Uppercase character class used by `generateSecurePassword`. -/
def uppercase : String := "ABCDEFGHIJKLMNOPQRSTUVWXYZ"

/-- Digit character class used by `generateSecurePassword`. -/
def digits : String := "0123456789"

/-- Special character class used by `generateSecurePassword`
(the source literal is `!@#$%^&*()_+-=[]{}|;:,.<>?`, braces escaped here). -/
def special : String := "!@#$%^&*()_+-=[]\x7b\x7d|;:,.<>?"

/-- Union of the four classes, source: `const allChars = lowercase + uppercase + digits + special`. -/
def allChars : String := lowercase ++ uppercase ++ digits ++ special

/-- Explicit record of the random draws consumed by one call of
`generateSecurePassword`: the four seeding indices produced by
`crypto.randomInt(class.length)`, the twelve fill indices produced by
`crypto.randomInt(allChars.length)`, and the permutation realized by the
random-comparator `sort`. -/
structure Rand where
  seedLower : Nat
  seedUpper : Nat
  seedDigit : Nat
  seedSpecial : Nat
  fills : List Nat
  shuffle : List Char → List Char

/-- The 16-character array before shuffling: one seeded character from each
class followed by the fill characters drawn from `allChars`
(source lines 90-101). -/
def seedFill (r : Rand) : List Char :=
  [lowercase.data.getD r.seedLower 'a',
   uppercase.data.getD r.seedUpper 'A',
   digits.data.getD r.seedDigit '0',
   special.data.getD r.seedSpecial '!']
  ++ r.fills.map (fun i => allChars.data.getD i 'a')

/-- Source: `generateSecurePassword` — seed, fill, then shuffle and join. -/
def generateSecurePassword (r : Rand) : String :=
  String.mk (r.shuffle (seedFill r))

/-- Well-formedness of the random draws, guaranteed by `crypto.randomInt`
bounds and by the loop `for (i = 4; i < 16; i++)`: each seeding index is
below its class size, exactly twelve fill draws occur, and the
random-comparator `sort` permutes the array. -/
def RandWF (r : Rand) : Prop :=
  r.seedLower < lowercase.length ∧
  r.seedUpper < uppercase.length ∧
  r.seedDigit < digits.length ∧
  r.seedSpecial < special.length ∧
  r.fills.length = 12 ∧
  ∀ l : List Char, List.Perm (r.shuffle l) l

/-- A fixed choice of draws (shuffle realized as the identity permutation),
used to evaluate the generator on concrete inputs. -/
def rand0 : Rand :=
  { seedLower := 0, seedUpper := 0, seedDigit := 0, seedSpecial := 0,
    fills := List.replicate 12 0, shuffle := fun l => l }

/-! ## Image presets and OS detection (source lines 7-27) -/

/-- Source: the `IMAGE_PRESETS` object literal, as an association list. -/
def IMAGE_PRESETS : List (String × String) :=
  [("windows-11", "MicrosoftWindowsDesktop:Windows-11:win11-23h2-pro:latest"),
   ("windows-10", "MicrosoftWindowsDesktop:Windows-10:win10-22h2-pro:latest"),
   ("windows-server-2022", "MicrosoftWindowsServer:WindowsServer:2022-datacenter:latest"),
   ("windows-server-2019", "MicrosoftWindowsServer:WindowsServer:2019-datacenter:latest"),
   ("ubuntu", "Canonical:0001-com-ubuntu-server-jammy:22_04-lts:latest"),
   ("ubuntu-20", "Canonical:0001-com-ubuntu-server-focal:20_04-lts:latest"),
   ("debian", "Debian:debian-11:11:latest"),
   ("centos", "OpenLogic:CentOS:7_9:latest"),
   ("rhel", "RedHat:RHEL:8-lvm:latest"),
   ("suse", "SUSE:sles-15-sp3:gen2:latest")]

/-- Source: `String.prototype.includes` — substring containment on the
underlying character lists. -/
def strContains (s pat : String) : Bool :=
  decide (pat.data <:+: s.data)

/-- Source: `String.prototype.toLowerCase` — character-wise lowering. -/
def strToLower (s : String) : String :=
  String.mk (s.data.map Char.toLower)

/-- Source: `detectOSType` (lines 21-27) — lowercase the image, return
"windows" when it contains "windows" or "win", else "linux". -/
def detectOSType (image : String) : String :=
  let imageLower := strToLower image
  if strContains imageLower "windows" || strContains imageLower "win" then "windows"
  else "linux"

/-- Source: lines 51-54 — `if (IMAGE_PRESETS[args.image]) args.image = IMAGE_PRESETS[args.image]`.
The truthiness test on the looked-up string is the emptiness test. -/
def resolveImage (image : String) : String :=
  match IMAGE_PRESETS.lookup image with
  | some v => if v = "" then image else v
  | none => image

/-! ## Argument resolution (source: parseArgs, lines 30-76) -/

/-- The mutable `args` record of `parseArgs` before derivation: `name`,
`password` and `os` start as `null`. -/
structure Args where
  location : String
  name : Option String
  size : String
  image : String
  resourceGroup : String
  username : String
  password : Option String
  os : Option String

/-- Source lines 31-40: the defaults, with the `Date.now()` reading for the
resource-group suffix passed explicitly. -/
def initArgs (nowRG : Nat) : Args :=
  { location := "northeurope", name := none, size := "Standard_D2s_v3",
    image := "windows-11", resourceGroup := "vm-rg-" ++ Nat.repr nowRG,
    username := "azureuser", password := none, os := none }

/-- Source: `String.prototype.split("=")` on the character list. -/
def splitEq : List Char → List (List Char)
  | [] => [[]]
  | c :: rest =>
    if c = '=' then [] :: splitEq rest
    else
      match splitEq rest with
      | [] => [[c]]
      | h :: t => (c :: h) :: t

/-- Source lines 43-45: a token is used when it starts with `--`, splits on
`=` into a key and a truthy (non-empty) first value; otherwise it yields
nothing. `arg.substring(2).split("=")` destructured as `[key, value]`. -/
def parseToken (s : String) : Option (String × String) :=
  match s.data with
  | '-' :: '-' :: rest =>
    (match splitEq rest with
     | [] => none
     | [_] => none
     | k :: v :: _ => if v = [] then none else some (String.mk k, String.mk v))
  | _ => none

/-- Source lines 45-47: `if (key in args && value) args[key] = value` — the
own keys of `args` are the seven public flags plus `os`. -/
def applyToken (a : Args) (tok : String) : Args :=
  match parseToken tok with
  | none => a
  | some (k, v) =>
    if k = "location" then { a with location := v }
    else if k = "name" then { a with name := some v }
    else if k = "size" then { a with size := v }
    else if k = "image" then { a with image := v }
    else if k = "resourceGroup" then { a with resourceGroup := v }
    else if k = "username" then { a with username := v }
    else if k = "password" then { a with password := some v }
    else if k = "os" then { a with os := some v }
    else a

/-- The fully resolved configuration record. -/
structure Config where
  location : String
  name : String
  size : String
  image : String
  resourceGroup : String
  username : String
  password : String
  os : String

/-- Source: `Date.now().toString().slice(-8)` — the last (at most) `n`
characters of a string. -/
def sliceLast (n : Nat) (s : String) : String :=
  String.mk (s.data.drop (s.data.length - n))

/-- Source lines 60-68: the auto-generated name, branching on the detected
OS family; the windows scheme keeps the name within the 15-character limit. -/
def defaultName (os : String) (nowName : Nat) : String :=
  if os = "windows" then "win-" ++ sliceLast 8 (Nat.repr nowName)
  else "linux-vm-" ++ Nat.repr nowName

/-- Source lines 51-75: preset resolution, OS detection, name defaulting and
password defaulting, applied after the token loop. -/
def finalize (a : Args) (nowName : Nat) (r : Rand) : Config :=
  let image := resolveImage a.image
  let os := detectOSType image
  let name :=
    match a.name with
    | some n => n
    | none => defaultName os nowName
  let password :=
    match a.password with
    | some p => p
    | none => generateSecurePassword r
  { location := a.location, name := name, size := a.size, image := image,
    resourceGroup := a.resourceGroup, username := a.username,
    password := password, os := os }

/-- Source: `parseArgs` — defaults, the token loop, then the derivation
steps. The two `Date.now()` readings (resource-group default, name default)
and the password draws are explicit parameters. -/
def parseArgs (tokens : List String) (nowRG nowName : Nat) (r : Rand) : Config :=
  finalize (tokens.foldl applyToken (initArgs nowRG)) nowName r

/-! ## Prototype-chain semantics of the preset lookup (source lines 52-57)

`IMAGE_PRESETS` is a plain object literal, so `IMAGE_PRESETS[args.image]`
consults the `Object.prototype` chain after the own keys. For an image value
naming an `Object.prototype` member the lookup yields the inherited
function (or, for `__proto__`, the prototype object) — a truthy non-string
— which line 53 assigns to `args.image`, and `detectOSType` then throws a
`TypeError` calling `.toLowerCase()` on it. -/

/-- The member names of `Object.prototype` reachable through property access
on an object literal. -/
def protoKeys : List String :=
  ["constructor", "hasOwnProperty", "isPrototypeOf", "propertyIsEnumerable",
   "toLocaleString", "toString", "valueOf", "__proto__",
   "__defineGetter__", "__defineSetter__", "__lookupGetter__", "__lookupSetter__"]

/-- A JavaScript value obtained from the preset lookup: either a string, or
a non-string inherited member of `Object.prototype` (a function, or the
prototype object itself for `__proto__`). -/
inductive JSValue where
  | str : String → JSValue
  | obj : JSValue
  deriving DecidableEq

/-- JS truthiness of a looked-up member: a string is truthy when non-empty;
the inherited functions and the prototype object are always truthy. -/
def JSValue.truthy : JSValue → Bool
  | .str s => !(s == "")
  | .obj => true

/-- Source line 52: `IMAGE_PRESETS[args.image]` with JS property-access
semantics — own keys first, then the `Object.prototype` chain, `none` for
`undefined`. -/
def presetLookupJS (image : String) : Option JSValue :=
  match IMAGE_PRESETS.lookup image with
  | some v => some (JSValue.str v)
  | none => if image ∈ protoKeys then some JSValue.obj else none

/-- Source lines 52-54 under JS property-access semantics: a truthy lookup
result replaces the image value (possibly with a non-string inherited
member); otherwise the image value is kept. -/
def resolveImageJS (image : String) : JSValue :=
  match presetLookupJS image with
  | some v => if v.truthy then v else JSValue.str image
  | none => JSValue.str image

/-- Source `parseArgs` under JS property-access semantics for the preset
lookup: when the resolved image value is a non-string inherited member,
`detectOSType` (line 57) throws a `TypeError` (modelled as `Except.error`);
otherwise resolution proceeds exactly as in `parseArgs`. -/
def parseArgsJS (tokens : List String) (nowRG nowName : Nat) (r : Rand) :
    Except Unit Config :=
  let a := tokens.foldl applyToken (initArgs nowRG)
  match resolveImageJS a.image with
  | JSValue.obj => Except.error ()
  | JSValue.str image =>
    let os := detectOSType image
    let name :=
      match a.name with
      | some n => n
      | none => defaultName os nowName
    let password :=
      match a.password with
      | some p => p
      | none => generateSecurePassword r
    Except.ok
      { location := a.location, name := name, size := a.size, image := image,
        resourceGroup := a.resourceGroup, username := a.username,
        password := password, os := os }

/-! ## VM-creation command and credential escaping (source: createVM, lines 168-199) -/

/-- Source line 174: `replace(/"/g, '\\"')`. -/
def escapeQuotes : List Char → List Char
  | [] => []
  | c :: rest =>
    if c = '"' then '\\' :: '"' :: escapeQuotes rest
    else c :: escapeQuotes rest

/-- Source line 175: `replace(/\$/g, "\\$")`. -/
def escapeDollars : List Char → List Char
  | [] => []
  | c :: rest =>
    if c = '$' then '\\' :: '$' :: escapeDollars rest
    else c :: escapeDollars rest

/-- Source lines 173-175: the escaped password, quotes first then dollars. -/
def escapePassword (p : String) : String :=
  String.mk (escapeDollars (escapeQuotes p.data))

/-- Modelled from the spec's wording for comparison with `escapePassword`:
a single simultaneous pass replacing every `"` by `\"` and every `$` by `\$`. -/
def escapeSpecChars : List Char → List Char
  | [] => []
  | c :: rest =>
    (if c = '"' then ['\\', '"'] else if c = '$' then ['\\', '$'] else [c])
    ++ escapeSpecChars rest

/-- Source line 178: the inbound network rule chosen by OS family. -/
def nsgRule (os : String) : String :=
  if os = "windows" then "RDP" else "SSH"

/-- Source lines 180-188: the `az vm create` template literal. Each
backslash-newline continuation contributes the following line's four-space
indentation, so consecutive segments are separated by five spaces. -/
def createVMCommand (cfg : Config) : String :=
  let escapedPassword := escapePassword cfg.password
  "az vm create     --resource-group " ++ cfg.resourceGroup
  ++ "     --name " ++ cfg.name
  ++ "     --image " ++ cfg.image
  ++ "     --admin-username " ++ cfg.username
  ++ "     --admin-password \"" ++ escapedPassword
  ++ "\"     --size " ++ cfg.size
  ++ "     --public-ip-sku Standard     --nsg-rule " ++ nsgRule cfg.os

/-! ## External-call model (source: exec, checks, createResourceGroup, createVM, main) -/

/-- Outcome of one `execSync` invocation: success with captured stdout, or a
failure carrying the error object's (optional) captured stdout. -/
inductive ExecOutcome where
  | ok : String → ExecOutcome
  | err : Option String → ExecOutcome

/-- Source lines 108-120: `exec` returns the trimmed stdout; on failure it
returns the error's stdout when that is truthy (non-empty), otherwise it
rethrows (modelled as `Except.error`). -/
def execCall : ExecOutcome → Except Unit String
  | .ok s => .ok s.trim
  | .err none => .error ()
  | .err (some s) => if s = "" then .error () else .ok s.trim

/-- The five external call sites of one run, in program order. -/
inductive CallSite where
  | azVersion
  | accountShow
  | groupCreate
  | vmCreate
  | groupDelete
  deriving DecidableEq

/-- Environment of one run: the subprocess outcome at each call site, plus
the results of the two `JSON.parse` uses. `parseAccount s` tells whether
`JSON.parse(s).user.name` evaluates without throwing; `parseVM s` is `none`
when `JSON.parse(s)` throws, and otherwise carries the truthiness of the
parsed value. -/
structure Env where
  azVersion : ExecOutcome
  accountShow : ExecOutcome
  groupCreate : ExecOutcome
  vmCreate : ExecOutcome
  groupDelete : ExecOutcome
  parseAccount : String → Bool
  parseVM : String → Option Bool

/-- The outcome an environment assigns to a call site. -/
def Env.outcome (e : Env) : CallSite → ExecOutcome
  | .azVersion => e.azVersion
  | .accountShow => e.accountShow
  | .groupCreate => e.groupCreate
  | .vmCreate => e.vmCreate
  | .groupDelete => e.groupDelete

/-- Whether a call site's subprocess failure is rethrown by `exec`
(failure with no truthy captured stdout). -/
def hardFailB (o : ExecOutcome) : Bool :=
  match execCall o with
  | .error _ => true
  | .ok _ => false

/-- Source lines 190-198: `createVM` returns the parsed JSON, or `null`
(here `none`) when the command or the parse throws. -/
def createVMResult (e : Env) : Option Bool :=
  match execCall e.vmCreate with
  | .error _ => none
  | .ok out => e.parseVM out

/-- Truthiness of `createVM`'s result as tested by `if (!vmData)`. -/
def vmTruthy : Option Bool → Bool
  | some true => true
  | some false => false
  | none => false

/-- Result of one run: the external calls issued, in order, and the exit code. -/
structure RunResult where
  calls : List CallSite
  exitCode : Nat

/-- Source lines 269-307 plus the top-level catch (lines 375-378): the
sequential control flow of `main`. The cleanup branch distinguishes the
cleanup call succeeding (reaching `process.exit(1)`) from its `exec`
rethrowing (caught at top level, also exiting 1). -/
def runMain (e : Env) : RunResult :=
  match execCall e.azVersion with
  | .error _ => ⟨[.azVersion], 1⟩
  | .ok _ =>
    match execCall e.accountShow with
    | .error _ => ⟨[.azVersion, .accountShow], 1⟩
    | .ok acct =>
      if e.parseAccount acct then
        match execCall e.groupCreate with
        | .error _ => ⟨[.azVersion, .accountShow, .groupCreate], 1⟩
        | .ok _ =>
          if vmTruthy (createVMResult e) then
            ⟨[.azVersion, .accountShow, .groupCreate, .vmCreate], 0⟩
          else
            match execCall e.groupDelete with
            | .ok _ => ⟨[.azVersion, .accountShow, .groupCreate, .vmCreate, .groupDelete], 1⟩
            | .error _ => ⟨[.azVersion, .accountShow, .groupCreate, .vmCreate, .groupDelete], 1⟩
      else ⟨[.azVersion, .accountShow], 1⟩

/-! ## Auxiliary predicates used by the statements -/

/-- Whether a key is one of the seven documented flags (help text lines 315-321). -/
def isRecognizedKey (k : String) : Bool :=
  k == "location" || k == "name" || k == "size" || k == "image"
  || k == "resourceGroup" || k == "username" || k == "password"

/-- A token that either fails the `--key=value` shape test or names a key
outside the seven documented flags. -/
def ignoredTokenB (t : String) : Bool :=
  match parseToken t with
  | none => true
  | some (k, _) => !(isRecognizedKey k)

/-- Whether a token supplies a `name` value. -/
def setsNameB (t : String) : Bool :=
  match parseToken t with
  | none => false
  | some (k, _) => k == "name"

/-- Equality of two intermediate argument records on every field except
`resourceGroup` and `os`. -/
def ArgsCoreEq (a b : Args) : Prop :=
  a.location = b.location ∧ a.name = b.name ∧ a.size = b.size ∧ a.image = b.image
  ∧ a.username = b.username ∧ a.password = b.password

/-- Equality of two intermediate argument records on every field except `os`. -/
def ArgsNoOsEq (a b : Args) : Prop :=
  a.location = b.location ∧ a.name = b.name ∧ a.size = b.size ∧ a.image = b.image
  ∧ a.resourceGroup = b.resourceGroup ∧ a.username = b.username ∧ a.password = b.password

/-- Environment in which `az group create` fails but its captured stdout is
non-empty, while every other call succeeds. -/
def envSwallow : Env :=
  { azVersion := .ok "", accountShow := .ok "account-json",
    groupCreate := .err (some "boom"), vmCreate := .ok "vm-json",
    groupDelete := .ok "", parseAccount := fun _ => true,
    parseVM := fun _ => some true }

/-- Environment in which the very first call (`az --version`) fails with no
captured stdout. -/
def envHardFail : Env :=
  { azVersion := .err none, accountShow := .ok "", groupCreate := .ok "",
    vmCreate := .ok "", groupDelete := .ok "", parseAccount := fun _ => true,
    parseVM := fun _ => some true }

/-- Environment in which resource-group creation succeeds and VM creation
fails (its subprocess fails with no captured stdout). -/
def envVmFail : Env :=
  { azVersion := .ok "", accountShow := .ok "account-json",
    groupCreate := .ok "", vmCreate := .err none, groupDelete := .ok "",
    parseAccount := fun _ => true, parseVM := fun _ => some true }

/-! ## Helper lemmas -/

/-- Indexing with a fallback inside the bounds returns an element of the list. -/
theorem getD_mem {α : Type} (l : List α) (i : Nat) (d : α) (h : i < l.length) :
    l.getD i d ∈ l := by
  rw [List.getD_eq_getElem l d h]
  exact List.getElem_mem h

/-- Association-list lookup misses every string that is not among the keys. -/
theorem lookup_eq_none_of_not_mem_keys (l : List (String × String)) (s : String)
    (h : s ∉ l.map Prod.fst) : l.lookup s = none := by
  induction l with
  | nil => rfl
  | cons kv t ih =>
    obtain ⟨k, v⟩ := kv
    simp only [List.map_cons, List.mem_cons, not_or] at h
    obtain ⟨h1, h2⟩ := h
    have hbeq : (s == k) = false := beq_eq_false_iff_ne.2 h1
    simp [List.lookup, hbeq, ih h2]

/-- No `Object.prototype` member name is shadowed by an own preset key. -/
theorem proto_lookup_none : ∀ s ∈ protoKeys, IMAGE_PRESETS.lookup s = none := by
  decide

/-- Away from the `Object.prototype` member names, the prototype-aware
lookup agrees with the plain association-list resolution. -/
theorem resolveImageJS_of_not_proto (image : String) (h : image ∉ protoKeys) :
    resolveImageJS image = JSValue.str (resolveImage image) := by
  unfold resolveImageJS presetLookupJS resolveImage
  cases hl : IMAGE_PRESETS.lookup image with
  | some v =>
    dsimp only
    by_cases hv : v = ""
    · simp [JSValue.truthy, hv]
    · simp [JSValue.truthy, hv]
  | none =>
    simp [h]

/-- When the raw image value is not an `Object.prototype` member name,
prototype-aware resolution succeeds and agrees with `parseArgs`. -/
theorem parseArgsJS_ok (tokens : List String) (n1 n2 : Nat) (r : Rand)
    (h : (tokens.foldl applyToken (initArgs n1)).image ∉ protoKeys) :
    parseArgsJS tokens n1 n2 r = Except.ok (parseArgs tokens n1 n2 r) := by
  simp only [parseArgsJS, parseArgs, finalize, resolveImageJS_of_not_proto _ h]

/-- When the raw image value is an `Object.prototype` member name, the
inherited truthy non-string replaces the image and resolution throws. -/
theorem parseArgsJS_error (tokens : List String) (n1 n2 : Nat) (r : Rand)
    (h : (tokens.foldl applyToken (initArgs n1)).image ∈ protoKeys) :
    parseArgsJS tokens n1 n2 r = Except.error () := by
  have hobj : resolveImageJS (tokens.foldl applyToken (initArgs n1)).image = JSValue.obj := by
    unfold resolveImageJS presetLookupJS
    rw [proto_lookup_none _ h]
    simp [h, JSValue.truthy]
  simp only [parseArgsJS, hobj]

/-- The two sequential replacements of `escapePassword` coincide with the
simultaneous replacement described by the specification. -/
theorem escape_two_pass (l : List Char) :
    escapeDollars (escapeQuotes l) = escapeSpecChars l := by
  induction l with
  | nil => rfl
  | cons c t ih =>
    by_cases hq : c = '"'
    · subst hq
      simp [escapeQuotes, escapeDollars, escapeSpecChars, ih]
    · by_cases hd : c = '$'
      · subst hd
        simp [escapeQuotes, escapeDollars, escapeSpecChars, ih]
      · simp [escapeQuotes, escapeDollars, escapeSpecChars, hq, hd, ih]

/-! ## Claim theorems -/

/-- C2: for every image string, `detectOSType` returns `"windows"` exactly
when the lowercased image contains `"windows"` or `"win"` as a substring,
and returns `"linux"` in every other case; and the `osFamily` field of every
resolved configuration is obtained by applying `detectOSType` to that
configuration's resolved image string, so `osFamily` is a pure function of
the resolved image. -/
theorem c2_os_family :
    (∀ image : String,
      (detectOSType image = "windows" ↔
        ("windows".data <:+: (strToLower image).data ∨ "win".data <:+: (strToLower image).data))
      ∧ (detectOSType image = "windows" ∨ detectOSType image = "linux"))
    ∧ (∀ (tokens : List String) (nowRG nowName : Nat) (r : Rand),
        (parseArgs tokens nowRG nowName r).os
          = detectOSType (parseArgs tokens nowRG nowName r).image) := by
  constructor
  · intro image
    by_cases h1 : "windows".data <:+: (strToLower image).data
    · constructor
      · simp [detectOSType, strContains, h1]
      · left
        simp [detectOSType, strContains, h1]
    · by_cases h2 : "win".data <:+: (strToLower image).data
      · constructor
        · simp [detectOSType, strContains, h2]
        · left
          simp [detectOSType, strContains, h2]
      · constructor
        · simp [detectOSType, strContains, h1, h2]
        · right
          simp [detectOSType, strContains, h1, h2]
  · intro tokens nowRG nowName r
    rfl

/-- C3 counterexample: `"constructor"` is not a key of the fixed preset
mapping, yet resolution does not return it unchanged — the object-literal
lookup hits the inherited `Object.prototype.constructor`, a truthy
non-string that replaces the image value, and resolution of
`--image=constructor` subsequently throws. -/
theorem c3_preset_resolution_counterexample :
    "constructor" ∉ IMAGE_PRESETS.map Prod.fst
    ∧ resolveImageJS "constructor" ≠ JSValue.str "constructor"
    ∧ parseArgsJS ["--image=constructor"] 0 0 rand0 = Except.error () :=
  ⟨by decide, by decide, rfl⟩

/-- C3 (amended): resolving any image value that is a key of
`IMAGE_PRESETS` yields exactly the mapped provider image identifier;
resolving any other string that is not an `Object.prototype` member name
returns that string unchanged; an `Object.prototype` member name is
truthy-replaced by the inherited non-string member (which subsequently makes
OS detection throw a `TypeError`). -/
theorem c3_preset_resolution :
    (∀ kv ∈ IMAGE_PRESETS, resolveImageJS kv.1 = JSValue.str kv.2)
    ∧ (∀ s : String, s ∉ IMAGE_PRESETS.map Prod.fst → s ∉ protoKeys →
        resolveImageJS s = JSValue.str s)
    ∧ (∀ s : String, s ∈ protoKeys → resolveImageJS s = JSValue.obj) := by
  refine ⟨by decide, ?_, by decide⟩
  intro s hs hp
  unfold resolveImageJS presetLookupJS
  rw [lookup_eq_none_of_not_mem_keys IMAGE_PRESETS s hs]
  simp [hp]

/-- Witness for C3 (amended): the `ubuntu` preset resolves to its mapped
identifier, a non-preset image identifier passes through unchanged, and the
`Object.prototype` member name `toString` is replaced by the inherited
non-string member. -/
theorem c3_preset_resolution_witness :
    resolveImageJS "ubuntu"
      = JSValue.str "Canonical:0001-com-ubuntu-server-jammy:22_04-lts:latest"
    ∧ resolveImageJS "Custom:Image:1:latest" = JSValue.str "Custom:Image:1:latest"
    ∧ resolveImageJS "toString" = JSValue.obj :=
  ⟨c3_preset_resolution.1
      ("ubuntu", "Canonical:0001-com-ubuntu-server-jammy:22_04-lts:latest") (by decide),
   c3_preset_resolution.2.1 "Custom:Image:1:latest" (by decide) (by decide),
   c3_preset_resolution.2.2 "toString" (by decide)⟩

/-- C5: the escaped credential interpolated into the VM-creation command is
the password with every literal double quote replaced by backslash-quote and
every literal dollar replaced by backslash-dollar (the two sequential
replacements of the source coincide with that simultaneous replacement); the
password `a"b$c` renders as `a\"b\$c`; and the command contains the escaped
credential inside the double-quoted `--admin-password` argument. -/
theorem c5_credential_escaping :
    (∀ p : String, escapePassword p = String.mk (escapeSpecChars p.data))
    ∧ escapePassword "a\"b$c" = "a\\\"b\\$c"
    ∧ (∀ cfg : Config,
        ("     --admin-password \"" ++ escapePassword cfg.password ++ "\"     --size ").data
          <:+: (createVMCommand cfg).data) := by
  refine ⟨?_, by decide, ?_⟩
  · intro p
    exact congrArg String.mk (escape_two_pass p.data)
  · intro cfg
    refine ⟨("az vm create     --resource-group " ++ cfg.resourceGroup ++ "     --name "
        ++ cfg.name ++ "     --image " ++ cfg.image ++ "     --admin-username "
        ++ cfg.username).data,
      (cfg.size ++ "     --public-ip-sku Standard     --nsg-rule " ++ nsgRule cfg.os).data, ?_⟩
    simp [createVMCommand, String.data_append, List.append_assoc]

/-- C1: for every outcome of the random draws (in-bounds seeding indices,
twelve fill draws, and any permutation realized by the shuffle), the
generated password is exactly 16 characters long and contains at least one
lowercase letter, one uppercase letter, one digit, and one character from
the fixed special-character set. -/
theorem c1_password_policy (r : Rand) (h : RandWF r) :
    (generateSecurePassword r).length = 16
    ∧ (∃ c ∈ (generateSecurePassword r).data, c ∈ lowercase.data)
    ∧ (∃ c ∈ (generateSecurePassword r).data, c ∈ uppercase.data)
    ∧ (∃ c ∈ (generateSecurePassword r).data, c ∈ digits.data)
    ∧ (∃ c ∈ (generateSecurePassword r).data, c ∈ special.data) := by
  obtain ⟨h1, h2, h3, h4, h5, h6⟩ := h
  have hperm := h6 (seedFill r)
  have hmem : ∀ c, c ∈ seedFill r → c ∈ (generateSecurePassword r).data := by
    intro c hc
    exact hperm.mem_iff.2 hc
  refine ⟨?_, ?_, ?_, ?_, ?_⟩
  · show (r.shuffle (seedFill r)).length = 16
    rw [hperm.length_eq]
    simp [seedFill, h5]
  · exact ⟨lowercase.data.getD r.seedLower 'a', hmem _ (by simp [seedFill]),
      getD_mem _ _ _ h1⟩
  · exact ⟨uppercase.data.getD r.seedUpper 'A', hmem _ (by simp [seedFill]),
      getD_mem _ _ _ h2⟩
  · exact ⟨digits.data.getD r.seedDigit '0', hmem _ (by simp [seedFill]),
      getD_mem _ _ _ h3⟩
  · exact ⟨special.data.getD r.seedSpecial '!', hmem _ (by simp [seedFill]),
      getD_mem _ _ _ h4⟩

/-- Witness for C1: a concrete well-formed draw record, evaluated. -/
theorem c1_password_policy_witness :
    RandWF rand0
    ∧ ((generateSecurePassword rand0).length = 16
      ∧ (∃ c ∈ (generateSecurePassword rand0).data, c ∈ lowercase.data)
      ∧ (∃ c ∈ (generateSecurePassword rand0).data, c ∈ uppercase.data)
      ∧ (∃ c ∈ (generateSecurePassword rand0).data, c ∈ digits.data)
      ∧ (∃ c ∈ (generateSecurePassword rand0).data, c ∈ special.data)) := by
  have hwf : RandWF rand0 :=
    ⟨by decide, by decide, by decide, by decide, by decide, fun l => List.Perm.refl l⟩
  exact ⟨hwf, c1_password_policy rand0 hwf⟩

/-- Splitting on `=` never yields an empty list of pieces. -/
theorem splitEq_ne_nil (l : List Char) : splitEq l ≠ [] := by
  cases l with
  | nil => simp [splitEq]
  | cons c t =>
    by_cases h : c = '='
    · simp [splitEq, h]
    · simp only [splitEq, if_neg h]
      cases hs : splitEq t <;> simp

/-- Splitting a list with no `=` yields the single piece. -/
theorem splitEq_no_sep (l : List Char) (h : '=' ∉ l) : splitEq l = [l] := by
  induction l with
  | nil => rfl
  | cons c t ih =>
    simp only [List.mem_cons, not_or] at h
    obtain ⟨h1, h2⟩ := h
    have hc : ¬ (c = '=') := fun hc => h1 hc.symm
    simp [splitEq, hc, ih h2]

/-- Splitting peels off the piece before the first `=`. -/
theorem splitEq_append (ks rest : List Char) (h : '=' ∉ ks) :
    splitEq (ks ++ '=' :: rest) = ks :: splitEq rest := by
  induction ks with
  | nil => simp [splitEq]
  | cons c t ih =>
    simp only [List.mem_cons, not_or] at h
    obtain ⟨h1, h2⟩ := h
    have hc : ¬ (c = '=') := fun hc => h1 hc.symm
    simp only [List.cons_append, splitEq, if_neg hc, List.append_eq, ih h2]

/-- Token decomposition for a single `key=value` pair. -/
theorem parseToken_single (k v : String) (hk : '=' ∉ k.data) (hv : '=' ∉ v.data)
    (hne : v ≠ "") : parseToken ("--" ++ k ++ "=" ++ v) = some (k, v) := by
  have hdata : ("--" ++ k ++ "=" ++ v).data = '-' :: '-' :: (k.data ++ '=' :: v.data) := by
    simp [String.data_append, List.append_assoc]
  have hvd : v.data ≠ [] := fun hnil => hne (String.ext hnil)
  unfold parseToken
  rw [hdata]
  simp only [splitEq_append k.data v.data hk, splitEq_no_sep v.data hv]
  simp [hvd]

/-- Token decomposition when the value part itself contains a further `=`:
only the piece before the second `=` is kept. -/
theorem parseToken_double (k v1 v2 : String) (hk : '=' ∉ k.data) (hv : '=' ∉ v1.data)
    (hne : v1 ≠ "") : parseToken ("--" ++ k ++ "=" ++ v1 ++ "=" ++ v2) = some (k, v1) := by
  have hdata : ("--" ++ k ++ "=" ++ v1 ++ "=" ++ v2).data
      = '-' :: '-' :: (k.data ++ '=' :: (v1.data ++ '=' :: v2.data)) := by
    simp [String.data_append, List.append_assoc]
  have hvd : v1.data ≠ [] := fun hnil => hne (String.ext hnil)
  unfold parseToken
  rw [hdata]
  simp only [splitEq_append k.data _ hk, splitEq_append v1.data v2.data hv]
  simp [hvd]

/-- C10: a token `--key=v1=v2` whose value contains a further `=` is parsed
as setting `key` to only the piece `v1` before the second `=`, discarding the
rest; in particular `--password=a=b` resolves the password to `"a"`. -/
theorem c10_value_truncation :
    (∀ k v1 v2 : String, '=' ∉ k.data → '=' ∉ v1.data → v1 ≠ "" →
      parseToken ("--" ++ k ++ "=" ++ v1 ++ "=" ++ v2) = some (k, v1))
    ∧ (∀ (nowRG nowName : Nat) (r : Rand),
        (parseArgs ["--password=a=b"] nowRG nowName r).password = "a") := by
  constructor
  · intro k v1 v2 hk hv hne
    exact parseToken_double k v1 v2 hk hv hne
  · intro nowRG nowName r
    have hp : parseToken "--password=a=b" = some ("password", "a") := by decide
    simp [parseArgs, finalize, List.foldl, applyToken, hp]

/-- Witness for C10: the truncating parse evaluated on the concrete password
token. -/
theorem c10_value_truncation_witness :
    parseToken ("--" ++ "password" ++ "=" ++ "a" ++ "=" ++ "b") = some ("password", "a")
    ∧ (parseArgs ["--password=a=b"] 0 0 rand0).password = "a" :=
  ⟨c10_value_truncation.1 "password" "a" "b" (by decide) (by decide) (by decide),
   c10_value_truncation.2 0 0 rand0⟩

/-- Applying one token preserves agreement outside `resourceGroup` and `os`. -/
theorem applyToken_coreEq {a b : Args} (t : String) (h : ArgsCoreEq a b) :
    ArgsCoreEq (applyToken a t) (applyToken b t) := by
  obtain ⟨h1, h2, h3, h4, h5, h6⟩ := h
  unfold applyToken
  cases hp : parseToken t with
  | none => exact ⟨h1, h2, h3, h4, h5, h6⟩
  | some kv =>
    obtain ⟨k, v⟩ := kv
    dsimp only
    split_ifs <;> exact ⟨by simp [h1], by simp [h2], by simp [h3], by simp [h4],
      by simp [h5], by simp [h6]⟩

/-- Folding the token loop preserves agreement outside `resourceGroup` and `os`. -/
theorem foldl_coreEq (ts : List String) {a b : Args} (h : ArgsCoreEq a b) :
    ArgsCoreEq (ts.foldl applyToken a) (ts.foldl applyToken b) := by
  induction ts generalizing a b with
  | nil => exact h
  | cons t ts ih => exact ih (applyToken_coreEq t h)

/-- Applying one token preserves agreement outside `os`. -/
theorem applyToken_noOsEq {a b : Args} (t : String) (h : ArgsNoOsEq a b) :
    ArgsNoOsEq (applyToken a t) (applyToken b t) := by
  obtain ⟨h1, h2, h3, h4, h5, h6, h7⟩ := h
  unfold applyToken
  cases hp : parseToken t with
  | none => exact ⟨h1, h2, h3, h4, h5, h6, h7⟩
  | some kv =>
    obtain ⟨k, v⟩ := kv
    dsimp only
    split_ifs <;> exact ⟨by simp [h1], by simp [h2], by simp [h3], by simp [h4],
      by simp [h5], by simp [h6], by simp [h7]⟩

/-- Folding the token loop preserves agreement outside `os`. -/
theorem foldl_noOsEq (ts : List String) {a b : Args} (h : ArgsNoOsEq a b) :
    ArgsNoOsEq (ts.foldl applyToken a) (ts.foldl applyToken b) := by
  induction ts generalizing a b with
  | nil => exact h
  | cons t ts ih => exact ih (applyToken_noOsEq t h)

/-- The derivation steps never read the intermediate `os` field (line 57
overwrites it before any read), so agreement outside `os` yields equal
configurations. -/
theorem finalize_noOsEq {a b : Args} (nowName : Nat) (r : Rand) (h : ArgsNoOsEq a b) :
    finalize a nowName r = finalize b nowName r := by
  obtain ⟨h1, h2, h3, h4, h5, h6, h7⟩ := h
  simp [finalize, h1, h2, h3, h4, h5, h6, h7]

/-- A token that is ignored or sets only `os` leaves the record unchanged
outside `os`. -/
theorem applyToken_ignored_noOs (a : Args) (t : String) (h : ignoredTokenB t = true) :
    ArgsNoOsEq (applyToken a t) a := by
  unfold ignoredTokenB at h
  cases hp : parseToken t with
  | none => simp [applyToken, hp, ArgsNoOsEq]
  | some kv =>
    obtain ⟨k, v⟩ := kv
    rw [hp] at h
    simp only [Bool.not_eq_true'] at h
    simp only [isRecognizedKey, Bool.or_eq_false_iff, beq_eq_false_iff_ne] at h
    unfold applyToken
    rw [hp]
    dsimp only
    split_ifs <;> first
      | exact ⟨rfl, rfl, rfl, rfl, rfl, rfl, rfl⟩
      | simp_all

/-- A token that does not supply a name leaves the `name` field unchanged. -/
theorem applyToken_name_eq (a : Args) (t : String) (h : setsNameB t = false) :
    (applyToken a t).name = a.name := by
  unfold setsNameB at h
  cases hp : parseToken t with
  | none => simp [applyToken, hp]
  | some kv =>
    obtain ⟨k, v⟩ := kv
    rw [hp] at h
    simp only [beq_eq_false_iff_ne] at h
    unfold applyToken
    rw [hp]
    dsimp only
    split_ifs <;> simp_all

/-- The token loop leaves the `name` field unchanged when no token supplies
a name. -/
theorem foldl_name_eq (ts : List String) (a : Args) (h : ∀ t ∈ ts, setsNameB t = false) :
    (ts.foldl applyToken a).name = a.name := by
  induction ts generalizing a with
  | nil => rfl
  | cons t ts ih =>
    simp only [List.foldl_cons]
    rw [ih (applyToken a t) (fun u hu => h u (List.mem_cons_of_mem t hu)),
      applyToken_name_eq a t (h t (List.mem_cons_self t ts))]

/-- The last at-most-`n` characters of a string number at most `n`. -/
theorem sliceLast_length_le (n : Nat) (s : String) : (sliceLast n s).length ≤ n := by
  show (s.data.drop (s.data.length - n)).length ≤ n
  rw [List.length_drop]
  omega

/-- C4: when no `--name` token is supplied, the generated name is obtained
from the OS family inferred from the resolved image (name defaulting runs
after OS inference); for the `windows` family it has length at most 15,
while the `linux` scheme exceeds 15 characters already at realistic clock
readings. -/
theorem c4_name_defaulting :
    (∀ (tokens : List String) (nowRG nowName : Nat) (r : Rand),
      (∀ t ∈ tokens, setsNameB t = false) →
      (parseArgs tokens nowRG nowName r).name
          = defaultName (parseArgs tokens nowRG nowName r).os nowName
      ∧ ((parseArgs tokens nowRG nowName r).os = "windows" →
          (parseArgs tokens nowRG nowName r).name.length ≤ 15))
    ∧ ((parseArgs ["--image=ubuntu"] 0 1700000000000 rand0).os = "linux"
      ∧ 15 < (parseArgs ["--image=ubuntu"] 0 1700000000000 rand0).name.length) := by
  constructor
  · intro tokens nowRG nowName r h
    have hname : (tokens.foldl applyToken (initArgs nowRG)).name = none :=
      foldl_name_eq tokens (initArgs nowRG) h
    have hdef : (parseArgs tokens nowRG nowName r).name
        = defaultName (parseArgs tokens nowRG nowName r).os nowName := by
      simp [parseArgs, finalize, hname]
    refine ⟨hdef, ?_⟩
    intro hos
    rw [hdef, hos]
    unfold defaultName
    rw [if_pos rfl, String.length_append]
    have h4 : ("win-" : String).length = 4 := rfl
    have h8 := sliceLast_length_le 8 (Nat.repr nowName)
    omega
  · exact ⟨by decide, by decide⟩

/-- Witness for C4: a run with no tokens produces a windows-family name of
the default scheme within the 15-character limit. -/
theorem c4_name_defaulting_witness :
    (parseArgs [] 0 99 rand0).name = defaultName (parseArgs [] 0 99 rand0).os 99
    ∧ (parseArgs [] 0 99 rand0).name.length ≤ 15 := by
  have h := c4_name_defaulting.1 [] 0 99 rand0 (by intro t ht; cases ht)
  exact ⟨h.1, h.2 (by decide)⟩

/-- C6 counterexample: two resolutions of the same (empty) token sequence
with different clock readings yield different Configurations — the
auto-generated `resourceGroup` embeds the `Date.now()` reading — so the
resolved Configuration is not a function of the token sequence alone. -/
theorem c6_determinism_counterexample :
    ¬ (parseArgs [] 0 0 rand0 = parseArgs [] 1 1 rand0) := by
  intro h
  exact absurd (congrArg Config.resourceGroup h) (by decide)

/-- C6 (amended): argument resolution makes no external calls and is a pure
function of the token sequence, the clock readings, and the random draws it
consumes, but it is not total: it throws exactly when the raw image value is
an `Object.prototype` member name (the prototype-chain preset lookup yields
a truthy non-string and OS detection crashes); on every other input it
returns the Configuration computed by `parseArgs`, whose `location`, `size`,
`image`, `username` and `osFamily` fields depend on the token sequence
alone, while only the auto-generated `resourceGroup`, `name` and `password`
may differ between two runs on the same tokens. -/
theorem c6_resolution_behavior :
    (∀ (tokens : List String) (n1 n2 : Nat) (r : Rand),
      (parseArgsJS tokens n1 n2 r = Except.error ()
        ↔ (tokens.foldl applyToken (initArgs n1)).image ∈ protoKeys)
      ∧ (parseArgsJS tokens n1 n2 r = Except.error ()
        ∨ parseArgsJS tokens n1 n2 r = Except.ok (parseArgs tokens n1 n2 r)))
    ∧ (∀ (tokens : List String) (n1 n2 n1' n2' : Nat) (r r' : Rand),
      (parseArgs tokens n1 n2 r).location = (parseArgs tokens n1' n2' r').location
      ∧ (parseArgs tokens n1 n2 r).size = (parseArgs tokens n1' n2' r').size
      ∧ (parseArgs tokens n1 n2 r).image = (parseArgs tokens n1' n2' r').image
      ∧ (parseArgs tokens n1 n2 r).username = (parseArgs tokens n1' n2' r').username
      ∧ (parseArgs tokens n1 n2 r).os = (parseArgs tokens n1' n2' r').os) := by
  constructor
  · intro tokens n1 n2 r
    by_cases h : (tokens.foldl applyToken (initArgs n1)).image ∈ protoKeys
    · have he := parseArgsJS_error tokens n1 n2 r h
      exact ⟨⟨fun _ => h, fun _ => he⟩, Or.inl he⟩
    · have ho := parseArgsJS_ok tokens n1 n2 r h
      refine ⟨⟨fun he => ?_, fun hp => absurd hp h⟩, Or.inr ho⟩
      rw [ho] at he
      exact absurd he (by simp)
  · intro tokens n1 n2 n1' n2' r r'
    have hinit : ArgsCoreEq (initArgs n1) (initArgs n1') :=
      ⟨rfl, rfl, rfl, rfl, rfl, rfl⟩
    have hfold := foldl_coreEq tokens hinit
    obtain ⟨h1, h2, h3, h4, h5, h6⟩ := hfold
    refine ⟨?_, ?_, ?_, ?_, ?_⟩
    · exact h1
    · exact h3
    · show resolveImage (tokens.foldl applyToken (initArgs n1)).image
          = resolveImage (tokens.foldl applyToken (initArgs n1')).image
      rw [h4]
    · exact h5
    · show detectOSType (resolveImage (tokens.foldl applyToken (initArgs n1)).image)
          = detectOSType (resolveImage (tokens.foldl applyToken (initArgs n1')).image)
      rw [h4]

/-- C9: inserting a token whose key is not among the seven recognized keys,
or which lacks a (non-empty) `=value` part, anywhere in the token sequence
leaves the resolved Configuration unchanged; resolution of the empty token
sequence yields the fully populated defaults; and a recognized override
replaces its default. -/
theorem c9_lenient_parsing :
    (∀ (ts1 ts2 : List String) (t : String) (n1 n2 : Nat) (r : Rand),
      ignoredTokenB t = true →
      parseArgs (ts1 ++ t :: ts2) n1 n2 r = parseArgs (ts1 ++ ts2) n1 n2 r)
    ∧ (∀ (n1 n2 : Nat) (r : Rand),
      (parseArgs [] n1 n2 r).location = "northeurope"
      ∧ (parseArgs [] n1 n2 r).size = "Standard_D2s_v3"
      ∧ (parseArgs [] n1 n2 r).username = "azureuser"
      ∧ (parseArgs [] n1 n2 r).image
          = "MicrosoftWindowsDesktop:Windows-11:win11-23h2-pro:latest"
      ∧ (parseArgs [] n1 n2 r).resourceGroup = "vm-rg-" ++ Nat.repr n1)
    ∧ (∀ (v : String) (n1 n2 : Nat) (r : Rand), v ≠ "" → '=' ∉ v.data →
      (parseArgs ["--location=" ++ v] n1 n2 r).location = v) := by
  refine ⟨?_, ?_, ?_⟩
  · intro ts1 ts2 t n1 n2 r h
    unfold parseArgs
    rw [List.foldl_append, List.foldl_append, List.foldl_cons]
    exact finalize_noOsEq n2 r
      (foldl_noOsEq ts2 (applyToken_ignored_noOs (ts1.foldl applyToken (initArgs n1)) t h))
  · intro n1 n2 r
    exact ⟨rfl, rfl, rfl, rfl, rfl⟩
  · intro v n1 n2 r hne hv
    have hp : parseToken ("--" ++ "location" ++ "=" ++ v) = some ("location", v) :=
      parseToken_single "location" v (by decide) hv hne
    have hp' : parseToken ("--location=" ++ v) = some ("location", v) := hp
    simp [parseArgs, finalize, List.foldl, applyToken, hp']

/-- Witness for C9: an unrecognized `--verbose=1` flag is ignored and a
recognized `--location` override replaces the default. -/
theorem c9_lenient_parsing_witness :
    parseArgs ["--verbose=1"] 0 0 rand0 = parseArgs [] 0 0 rand0
    ∧ (parseArgs ["--location=uksouth"] 0 0 rand0).location = "uksouth" :=
  ⟨c9_lenient_parsing.1 [] [] "--verbose=1" 0 0 rand0 (by decide),
   c9_lenient_parsing.2.2 "uksouth" 0 0 rand0 (by decide) (by decide)⟩

/-- Every run either exits 1, or exits 0 having issued exactly the four
provisioning calls, none of which hard-failed. -/
theorem runMain_cases (e : Env) :
    (runMain e).exitCode = 1
    ∨ ((runMain e).exitCode = 0
      ∧ (runMain e).calls = [.azVersion, .accountShow, .groupCreate, .vmCreate]
      ∧ hardFailB e.azVersion = false ∧ hardFailB e.accountShow = false
      ∧ hardFailB e.groupCreate = false ∧ hardFailB e.vmCreate = false) := by
  unfold runMain
  cases h1 : execCall e.azVersion with
  | error u => left; rfl
  | ok s1 =>
    cases h2 : execCall e.accountShow with
    | error u => left; rfl
    | ok s2 =>
      dsimp only
      by_cases h3 : e.parseAccount s2 = true
      · rw [h3, if_pos rfl]
        cases h4 : execCall e.groupCreate with
        | error u => left; rfl
        | ok s3 =>
          by_cases h5 : vmTruthy (createVMResult e) = true
          · rw [h5, if_pos rfl]
            right
            refine ⟨rfl, rfl, by simp [hardFailB, h1], by simp [hardFailB, h2],
              by simp [hardFailB, h4], ?_⟩
            unfold createVMResult at h5
            cases h6 : execCall e.vmCreate with
            | error u => rw [h6] at h5; simp [vmTruthy] at h5
            | ok out => simp [hardFailB, h6]
          · rw [Bool.not_eq_true] at h5
            rw [h5, if_neg (by decide)]
            cases execCall e.groupDelete with
            | error u => left; rfl
            | ok s4 => left; rfl
      · rw [Bool.not_eq_true] at h3
        rw [h3, if_neg (by decide)]
        left
        rfl

/-- The run's trace and exit code do not depend on the cleanup call's
outcome. -/
theorem runMain_groupDelete_irrel (e : Env) (o : ExecOutcome) :
    (runMain { e with groupDelete := o }).exitCode = (runMain e).exitCode
    ∧ (runMain { e with groupDelete := o }).calls = (runMain e).calls := by
  have hcvr : createVMResult { e with groupDelete := o } = createVMResult e := rfl
  unfold runMain
  dsimp only
  rw [hcvr]
  cases execCall e.azVersion with
  | error u => exact ⟨rfl, rfl⟩
  | ok s1 =>
    cases execCall e.accountShow with
    | error u => exact ⟨rfl, rfl⟩
    | ok s2 =>
      dsimp only
      by_cases h3 : e.parseAccount s2 = true
      · rw [h3, if_pos rfl, if_pos rfl]
        cases execCall e.groupCreate with
        | error u => exact ⟨rfl, rfl⟩
        | ok s3 =>
          by_cases h5 : vmTruthy (createVMResult e) = true
          · rw [h5, if_pos rfl, if_pos rfl]
            exact ⟨rfl, rfl⟩
          · rw [Bool.not_eq_true] at h5
            rw [h5, if_neg (by decide), if_neg (by decide)]
            cases execCall o with
            | error u =>
              cases execCall e.groupDelete with
              | error u' => exact ⟨rfl, rfl⟩
              | ok s4 => exact ⟨rfl, rfl⟩
            | ok s4 =>
              cases execCall e.groupDelete with
              | error u' => exact ⟨rfl, rfl⟩
              | ok s5 => exact ⟨rfl, rfl⟩
      · rw [Bool.not_eq_true] at h3
        rw [h3, if_neg (by decide), if_neg (by decide)]
        exact ⟨rfl, rfl⟩

/-- C7 counterexample: in an environment where `az group create` fails but
leaves a non-empty captured stdout, the failure is returned as output by
`exec`, the run continues, and the process exits 0 — an external-call
failure that produces neither a user-facing error message nor a non-zero
exit, and is not a CLI-flag case. -/
theorem c7_error_propagation_counterexample :
    envSwallow.groupCreate = ExecOutcome.err (some "boom")
    ∧ CallSite.groupCreate ∈ (runMain envSwallow).calls
    ∧ (runMain envSwallow).exitCode = 0 :=
  ⟨rfl, by decide, by decide⟩

/-- C7 (amended): an external-call failure whose captured stdout is
non-empty is swallowed by `exec` and returned to the caller as ordinary
output; every other external-call failure at an issued call site leads to
exit code 1. -/
theorem c7_error_propagation :
    (∀ s : String, s ≠ "" → execCall (ExecOutcome.err (some s)) = Except.ok s.trim)
    ∧ (∀ (e : Env) (c : CallSite), c ∈ (runMain e).calls →
        hardFailB (e.outcome c) = true → (runMain e).exitCode = 1) := by
  constructor
  · intro s hs
    simp [execCall, hs]
  · intro e c hc hf
    rcases runMain_cases e with h | ⟨h0, hcalls, f1, f2, f3, f4⟩
    · exact h
    · exfalso
      rw [hcalls] at hc
      cases c with
      | azVersion => rw [Env.outcome] at hf; rw [f1] at hf; exact Bool.false_ne_true hf
      | accountShow => rw [Env.outcome] at hf; rw [f2] at hf; exact Bool.false_ne_true hf
      | groupCreate => rw [Env.outcome] at hf; rw [f3] at hf; exact Bool.false_ne_true hf
      | vmCreate => rw [Env.outcome] at hf; rw [f4] at hf; exact Bool.false_ne_true hf
      | groupDelete => simp at hc

/-- Witness for C7 (amended): the swallowing clause evaluated at a concrete
non-empty stdout, and the propagation clause evaluated in an environment
whose first call hard-fails. -/
theorem c7_error_propagation_witness :
    execCall (ExecOutcome.err (some "oops")) = Except.ok ("oops".trim)
    ∧ (runMain envHardFail).exitCode = 1 :=
  ⟨c7_error_propagation.1 "oops" (by decide),
   c7_error_propagation.2 envHardFail CallSite.azVersion (by decide) (by decide)⟩

/-- C8: the cleanup deletion call is issued exactly once, precisely on runs
that reach VM creation and whose VM creation fails; whenever the cleanup
call is issued the exit code is 1; and neither the trace nor the exit code
depends on the cleanup call's own outcome. -/
theorem c8_cleanup_on_vm_failure (e : Env) :
    ((runMain e).calls.count CallSite.groupDelete
      = if CallSite.vmCreate ∈ (runMain e).calls ∧ vmTruthy (createVMResult e) = false
        then 1 else 0)
    ∧ (CallSite.groupDelete ∈ (runMain e).calls → (runMain e).exitCode = 1)
    ∧ (∀ o : ExecOutcome,
        (runMain { e with groupDelete := o }).exitCode = (runMain e).exitCode
        ∧ (runMain { e with groupDelete := o }).calls = (runMain e).calls) := by
  refine ⟨?_, ?_, fun o => runMain_groupDelete_irrel e o⟩
  · unfold runMain
    cases h1 : execCall e.azVersion with
    | error u => simp
    | ok s1 =>
      dsimp only
      cases h2 : execCall e.accountShow with
      | error u => simp
      | ok s2 =>
        dsimp only
        by_cases h3 : e.parseAccount s2 = true
        · rw [h3, if_pos rfl]
          cases h4 : execCall e.groupCreate with
          | error u => simp
          | ok s3 =>
            dsimp only
            by_cases h5 : vmTruthy (createVMResult e) = true
            · rw [h5, if_pos rfl]
              rw [if_neg (by simp [h5])]
              decide
            · rw [Bool.not_eq_true] at h5
              rw [h5, if_neg (by decide)]
              cases execCall e.groupDelete with
              | error u =>
                dsimp only
                rw [if_pos ⟨by decide, rfl⟩]
                decide
              | ok s4 =>
                dsimp only
                rw [if_pos ⟨by decide, rfl⟩]
                decide
        · rw [Bool.not_eq_true] at h3
          rw [h3, if_neg (by decide)]
          simp
  · intro hd
    unfold runMain at hd ⊢
    cases h1 : execCall e.azVersion with
    | error u => rfl
    | ok s1 =>
      rw [h1] at hd
      dsimp only at hd ⊢
      cases h2 : execCall e.accountShow with
      | error u => rfl
      | ok s2 =>
        rw [h2] at hd
        dsimp only at hd ⊢
        by_cases h3 : e.parseAccount s2 = true
        · rw [h3, if_pos rfl] at hd ⊢
          cases h4 : execCall e.groupCreate with
          | error u => rfl
          | ok s3 =>
            rw [h4] at hd
            dsimp only at hd
            by_cases h5 : vmTruthy (createVMResult e) = true
            · rw [h5, if_pos rfl] at hd
              exact absurd hd (by decide)
            · rw [Bool.not_eq_true] at h5
              rw [h5, if_neg (by decide)]
              cases execCall e.groupDelete with
              | error u => rfl
              | ok s4 => rfl
        · rw [Bool.not_eq_true] at h3
          rw [h3, if_neg (by decide)] at hd
          exact absurd hd (by decide)

/-- Witness for C8: in an environment where resource-group creation succeeds
and VM creation fails, the cleanup call is issued exactly once and the exit
code is 1. -/
theorem c8_cleanup_on_vm_failure_witness :
    (runMain envVmFail).calls.count CallSite.groupDelete = 1
    ∧ (runMain envVmFail).exitCode = 1 := by
  have h := c8_cleanup_on_vm_failure envVmFail
  constructor
  · rw [h.1, if_pos (by decide)]
  · exact h.2.1 (by decide)

end AzVm
